import Mathlib

/-!
Verification development for the instagram-scraper library.

The library extracts a structured profile record from a rendered HTML
document using CSS-selector heuristics (src/user.ts), normalizes count
strings (User.cleanNum), and guards entity construction behind session
state (src/session.ts).  This file gives a shallow embedding of the DOM
fragment queried by the code, of the selector engine behavior the code
relies on, and of the extraction pipeline itself, and proves the spec
claims against it.
-/

/-- A DOM node: an element with a tag, attributes and children, or a text
node.  This models the document snapshot that the in-page evaluate
function of User.getInfo / User.loadInfo queries. -/
inductive Node where
  | elem (tag : String) (attrs : List (String × String)) (children : List Node)
  | text (s : String)

/-- Children of a node (text nodes have none). -/
def childrenOf : Node → List Node
  | Node.elem _ _ cs => cs
  | Node.text _ => []

/-- Whether a node is an element node. -/
def isElementNode : Node → Bool
  | Node.elem _ _ _ => true
  | Node.text _ => false

mutual

/-- DOM Node.textContent: all descendant text concatenated. -/
def textContent : Node → String
  | Node.text s => s
  | Node.elem _ _ cs => textContentList cs

/-- Concatenated text of a forest, in document order: the DOM textContent
of each node in the list, concatenated. -/
def textContentList : List Node → String
  | [] => ""
  | n :: rest => textContent n ++ textContentList rest

end

/-- DOM Element.childElementCount: number of element children. -/
def childElementCount (n : Node) : Nat :=
  ((childrenOf n).filter isElementNode).length

/-- Value of an attribute on an attribute list (DOM getAttribute). -/
def getAttrVal (attrs : List (String × String)) (name : String) : Option String :=
  (attrs.find? (fun p => p.1 == name)).map (fun p => p.2)

/-- getAttribute lifted to nodes; text nodes carry no attributes. -/
def attrOfNode : Node → String → Option String
  | Node.elem _ attrs _, name => getAttrVal attrs name
  | Node.text _, _ => none

/-- Does the character list hay start with the character list pat. -/
def chListStartsWith : List Char → List Char → Bool
  | _, [] => true
  | [], _ :: _ => false
  | h :: hs, n :: ns => h == n && chListStartsWith hs ns

/-- Does the character list hay contain pat as a contiguous run
(JavaScript String.prototype.includes). -/
def chListContains : List Char → List Char → Bool
  | [], pat => chListStartsWith [] pat
  | c :: hs, pat => chListStartsWith (c :: hs) pat || chListContains hs pat

/-- JavaScript String.prototype.includes on strings. -/
def strContains (hay pat : String) : Bool := chListContains hay.data pat.data

/-- Does the character list hay end with pat (CSS attribute operator for
value-ends-with). -/
def chListEndsWith (hay pat : List Char) : Bool :=
  chListStartsWith hay.reverse pat.reverse

/-- An attribute condition of a CSS simple selector: exact value match,
value-ends-with match, or bare attribute presence. -/
inductive AttrCond where
  | exact (name value : String)
  | ends (name value : String)
  | present (name : String)

/-- A CSS simple selector as used by the code: a tag name plus attribute
conditions. -/
structure SimpleSel where
  tag : String
  conds : List AttrCond

/-- A CSS selector of the shape used by the code: a chain of ancestor
simple selectors joined by descendant combinators, then a target simple
selector. -/
structure Selector where
  up : List SimpleSel
  target : SimpleSel

/-- Does an attribute list satisfy one attribute condition. -/
def matchAttrCond (attrs : List (String × String)) : AttrCond → Bool
  | AttrCond.exact n v => getAttrVal attrs n == some v
  | AttrCond.ends n v =>
    match getAttrVal attrs n with
    | some a => chListEndsWith a.data v.data
    | none => false
  | AttrCond.present n => (getAttrVal attrs n).isSome

/-- Does a node match a simple selector (text nodes never match). -/
def matchesSimple : Node → SimpleSel → Bool
  | Node.text _, _ => false
  | Node.elem tag attrs _, sel =>
    tag == sel.tag && sel.conds.all (matchAttrCond attrs)

/-- Can the simple-selector chain be embedded, in order, into the given
ancestor list (outermost ancestor first), each link matching an ancestor.
This is the descendant-combinator semantics. -/
def chainOk : List Node → List SimpleSel → Bool
  | _, [] => true
  | [], _ :: _ => false
  | a :: rest, s :: ss =>
    (matchesSimple a s && chainOk rest ss) || chainOk rest (s :: ss)

/-- Does a node with the given ancestor list (outermost first) match a
selector: the node matches the target and the ancestor chain embeds the
remaining links. -/
def matchesSel (sel : Selector) (anc : List Node) (n : Node) : Bool :=
  matchesSimple n sel.target && chainOk anc sel.up

mutual

/-- One node in pre-order together with its descendants, each paired with
its ancestor list (outermost first). -/
def nodeWithAnc (anc : List Node) : Node → List (Node × List Node)
  | Node.text s => [(Node.text s, anc)]
  | Node.elem t a cs =>
    (Node.elem t a cs, anc) :: nodesWithAncList (anc ++ [Node.elem t a cs]) cs

/-- All nodes of a forest in pre-order (document order), each paired with
its ancestor list (outermost first).  The initial accumulator is the
ancestor list of the forest roots. -/
def nodesWithAncList (anc : List Node) : List Node → List (Node × List Node)
  | [] => []
  | n :: rest => nodeWithAnc anc n ++ nodesWithAncList anc rest

end

/-- document.querySelectorAll, returning each match with its ancestor
list, in document order. -/
def selAllWA (doc : Node) (sel : Selector) : List (Node × List Node) :=
  (nodesWithAncList [] [doc]).filter (fun p => matchesSel sel p.2 p.1)

/-- element.querySelectorAll: matches among the proper descendants of el,
where ancestor combinators may also be satisfied by ancestors of el
itself (the WHATWG scoping behavior). -/
def elSelAll (anc : List Node) (el : Node) (sel : Selector) : List (Node × List Node) :=
  (nodesWithAncList (anc ++ [el]) (childrenOf el)).filter (fun p => matchesSel sel p.2 p.1)

/-- Element.closest restricted to a bare tag selector, used only for its
truthiness by the code: the node itself or some ancestor has the tag. -/
def closestTag (n : Node) (anc : List Node) (tag : String) : Bool :=
  matchesSimple n ⟨tag, []⟩ || anc.any (fun a => matchesSimple a ⟨tag, []⟩)

/-- ECMAScript whitespace recognized by String.prototype.trim and
parseInt (the code points the model covers). -/
def jsIsWs (c : Char) : Bool :=
  c == ' ' || c == '\t' || c == '\n' || c == '\r' || c == '\x0b' ||
    c == '\x0c' || c == '\u00A0' || c == '\uFEFF' || c == '\u2028' || c == '\u2029'

/-- String.prototype.trim over a character list. -/
def jsTrimChars (cs : List Char) : List Char :=
  ((cs.dropWhile jsIsWs).reverse.dropWhile jsIsWs).reverse

/-- String.prototype.trim. -/
def jsTrimString (s : String) : String := ⟨jsTrimChars s.data⟩

/-- Value of a decimal digit run, most significant first. -/
def digitsToNat (ds : List Char) : Nat :=
  ds.foldl (fun a c => 10 * a + (c.toNat - 48)) 0

/-- Hexadecimal digit test (ECMAScript parseInt with radix 16). -/
def isHexDigitCh (c : Char) : Bool :=
  c.isDigit || ('a' ≤ c && c ≤ 'f') || ('A' ≤ c && c ≤ 'F')

/-- Value of one hexadecimal digit. -/
def hexDigitVal (c : Char) : Nat :=
  if c.isDigit then c.toNat - 48
  else if 'a' ≤ c && c ≤ 'f' then c.toNat - 87
  else c.toNat - 55

/-- Value of a hexadecimal digit run, most significant first. -/
def hexDigitsToNat (ds : List Char) : Nat :=
  ds.foldl (fun a c => 16 * a + hexDigitVal c) 0

/-- ECMAScript parseInt digit phase, radix 10: longest leading decimal
digit run; none models NaN. -/
def decDigitsVal (cs : List Char) : Option Nat :=
  let ds := cs.takeWhile Char.isDigit
  if ds.isEmpty then none else some (digitsToNat ds)

/-- ECMAScript parseInt digit phase, radix 16 after a 0x prefix. -/
def hexDigitsVal (cs : List Char) : Option Nat :=
  let ds := cs.takeWhile isHexDigitCh
  if ds.isEmpty then none else some (hexDigitsToNat ds)

/-- ECMAScript parseInt radix detection with no radix argument: a 0x or
0X prefix selects radix 16, anything else radix 10. -/
def parseDigitsRadix (cs : List Char) : Option Nat :=
  match cs with
  | c0 :: c1 :: rest =>
    if c0 == '0' && (c1 == 'x' || c1 == 'X') then hexDigitsVal rest
    else decDigitsVal (c0 :: c1 :: rest)
  | _ => decDigitsVal cs

/-- ECMAScript parseInt with no radix argument: skip whitespace, read an
optional sign, detect a hex prefix, parse the longest digit run; none
models NaN. -/
def jsParseIntChars (cs : List Char) : Option Int :=
  match cs.dropWhile jsIsWs with
  | [] => none
  | c :: rest =>
    if c == '-' then (parseDigitsRadix rest).map (fun n => -(Int.ofNat n))
    else if c == '+' then (parseDigitsRadix rest).map (fun n => Int.ofNat n)
    else (parseDigitsRadix (c :: rest)).map (fun n => Int.ofNat n)

/-- User.cleanNum (src/user.ts): strips commas, trims, parses with
parseInt, and coalesces falsy results (NaN and 0) to -1 via the
JavaScript expression parseInt(clean) or-else -1.  The absent input
(null or undefined) and the empty string are caught by the initial
falsiness test. -/
def cleanNum (num : Option String) : Int :=
  match num with
  | none => -1
  | some s =>
    if s == "" then -1
    else
      let clean := jsTrimChars ((s.data).filter (fun c => c ≠ ','))
      match jsParseIntChars clean with
      | none => -1
      | some v => if v == 0 then -1 else v


/-! ## Selectors used by the in-page evaluate function of User.getInfo -/

/-- Selector: header span with dir equal to auto (the display-name
candidate pool, src/user.ts line 71). -/
def selHeaderSpanDirAuto : Selector :=
  ⟨[⟨"header", []⟩], ⟨"span", [AttrCond.exact "dir" "auto"]⟩⟩

/-- Selector: main div with role tablist (the privacy discriminant,
src/user.ts line 98). -/
def selMainTablist : Selector :=
  ⟨[⟨"main", []⟩], ⟨"div", [AttrCond.exact "role" "tablist"]⟩⟩

/-- Selector: header div with role button, then span with dir auto (the
bio element, src/user.ts line 103). -/
def selBioSpan : Selector :=
  ⟨[⟨"header", []⟩, ⟨"div", [AttrCond.exact "role" "button"]⟩],
   ⟨"span", [AttrCond.exact "dir" "auto"]⟩⟩

/-- Selector: any header span (the post-count candidate pool,
src/user.ts line 123). -/
def selHeaderSpan : Selector := ⟨[⟨"header", []⟩], ⟨"span", []⟩⟩

/-- Selector: header anchor whose href is the placeholder value (the
private-account count anchors, src/user.ts line 138). -/
def selHeaderAnchorHash : Selector :=
  ⟨[⟨"header", []⟩], ⟨"a", [AttrCond.exact "href" "#"]⟩⟩

/-- Selector: header anchor whose href ends in the followers path
(src/user.ts line 149). -/
def selHeaderAnchorFollowers : Selector :=
  ⟨[⟨"header", []⟩], ⟨"a", [AttrCond.ends "href" "/followers/"]⟩⟩

/-- Selector: header anchor whose href ends in the following path
(src/user.ts line 152). -/
def selHeaderAnchorFollowing : Selector :=
  ⟨[⟨"header", []⟩], ⟨"a", [AttrCond.ends "href" "/following/"]⟩⟩

/-- Selector: span carrying a title attribute (nested precise follower
count, src/user.ts line 155). -/
def selSpanTitle : Selector := ⟨[], ⟨"span", [AttrCond.present "title"]⟩⟩

/-- Selector: span nested inside a span (nested following count,
src/user.ts line 156). -/
def selSpanSpan : Selector := ⟨[⟨"span", []⟩], ⟨"span", []⟩⟩

/-- Selector: bare span (nested-span tests inside the name and post
predicates). -/
def selSpanPlain : Selector := ⟨[], ⟨"span", []⟩⟩

/-- Selector: header h2 (the username heading, src/user.ts line 160). -/
def selHeaderH2 : Selector := ⟨[⟨"header", []⟩], ⟨"h2", []⟩⟩

/-- Selector: header svg with aria-label Verified.  The source selector
literal lacks its closing bracket; per the CSS syntax end-of-file rule
browsers close the bracket implicitly, so it is modelled closed
(src/user.ts line 165). -/
def selHeaderSvgVerified : Selector :=
  ⟨[⟨"header", []⟩], ⟨"svg", [AttrCond.exact "aria-label" "Verified"]⟩⟩

/-- Selector: header img whose alt ends in the profile-picture phrase
(the readiness anchor and the avatar, src/user.ts lines 62 and 171). -/
def selHeaderAvatarImg : Selector :=
  ⟨[⟨"header", []⟩], ⟨"img", [AttrCond.ends "alt" "profile picture"]⟩⟩

/-! ## The locators, one definition per let binding of the source -/

/-- Display-name candidate pool (src/user.ts lines 70 to 72). -/
def nameCandidates (doc : Node) : List (Node × List Node) :=
  selAllWA doc selHeaderSpanDirAuto

/-- The display-name elimination predicate (src/user.ts lines 73 to 83):
reject a candidate inside an h2, inside an anchor, with a nested span,
or whose text contains the post-count label. -/
def nameSpanPred (span : Node × List Node) : Bool :=
  if closestTag span.1 span.2 "h2" then false
  else if closestTag span.1 span.2 "a" then false
  else if ((elSelAll span.2 span.1 selSpanPlain).head?).isSome then false
  else if strContains (textContent span.1) " posts" then false
  else true

/-- The display-name element (src/user.ts line 73): first candidate
passing the predicate. -/
def nameElOf (doc : Node) : Option (Node × List Node) :=
  (nameCandidates doc).find? nameSpanPred

/-- Pronouns (src/user.ts lines 88 to 92): only when the parent of the
name element has exactly two element children; then the text of the
last child node of the parent. -/
def pronounsOf (doc : Node) : Option String :=
  match nameElOf doc with
  | none => none
  | some span =>
    match span.2.getLast? with
    | none => none
    | some parent =>
      if childElementCount parent == 2 then
        ((childrenOf parent).getLast?).map textContent
      else none

/-- Privacy flag (src/user.ts lines 97 to 99): true exactly when no
element matches the main tablist selector. -/
def isPrivateOf (doc : Node) : Bool :=
  (selAllWA doc selMainTablist).length == 0

/-- The bio element (src/user.ts lines 102 to 104). -/
def bioElOf (doc : Node) : Option (Node × List Node) :=
  (selAllWA doc selBioSpan).head?

mutual

/-- The anchor-replacement loop over the cloned bio subtree (src/user.ts
lines 109 to 111): each outermost anchor element is replaced by a text
node carrying its textContent; anchors nested below a replaced anchor
were detached with it. -/
def unwrapAnchors : List Node → List Node
  | [] => []
  | n :: rest => unwrapAnchorNode n :: unwrapAnchors rest

/-- The effect of the anchor-replacement loop on one node. -/
def unwrapAnchorNode : Node → Node
  | Node.text s => Node.text s
  | Node.elem t a cs =>
    if t == "a" then Node.text (textContentList cs)
    else Node.elem t a (unwrapAnchors cs)

end

mutual

/-- The line-break replacement loop over the cloned bio subtree
(src/user.ts lines 113 to 115): each br element is replaced by a text
node carrying one newline character. -/
def breaksToNewlines : List Node → List Node
  | [] => []
  | n :: rest => breakToNewlineNode n :: breaksToNewlines rest

/-- The effect of the line-break replacement loop on one node. -/
def breakToNewlineNode : Node → Node
  | Node.text s => Node.text s
  | Node.elem t a cs =>
    if t == "br" then Node.text "\n"
    else Node.elem t a (breaksToNewlines cs)

end

/-- Bio (src/user.ts lines 105 to 119): none when no bio element, else
the textContent of the transformed clone.  The clone keeps the live
document unmodified, so the transform is a pure function of the
subtree. -/
def bioOf (doc : Node) : Option String :=
  match bioElOf doc with
  | none => none
  | some el =>
    some (textContentList (breaksToNewlines (unwrapAnchors (childrenOf el.1))))

/-- Post-count span predicate (src/user.ts lines 125 to 130): text
contains the posts word, not inside an anchor, and has a nested span. -/
def postSpanPred (span : Node × List Node) : Bool :=
  strContains (textContent span.1) "posts" &&
    !(closestTag span.1 span.2 "a") &&
    ((elSelAll span.2 span.1 selSpanPlain).head?).isSome

/-- Post-count node (src/user.ts lines 122 to 130): first child node of
the first matching span. -/
def postElOf (doc : Node) : Option Node :=
  ((selAllWA doc selHeaderSpan).find? postSpanPred).bind
    (fun span => (childrenOf span.1).head?)

/-- Follower anchor (src/user.ts lines 134 to 154): branch on the
privacy flag between placeholder anchors filtered by text and anchors
selected by href suffix. -/
def followerAnchorOf (doc : Node) : Option (Node × List Node) :=
  if isPrivateOf doc then
    (selAllWA doc selHeaderAnchorHash).find?
      (fun el => strContains (textContent el.1) "followers")
  else (selAllWA doc selHeaderAnchorFollowers).head?

/-- Following anchor (src/user.ts lines 134 to 154). -/
def followingAnchorOf (doc : Node) : Option (Node × List Node) :=
  if isPrivateOf doc then
    (selAllWA doc selHeaderAnchorHash).find?
      (fun el => strContains (textContent el.1) "following")
  else (selAllWA doc selHeaderAnchorFollowing).head?

/-- The nested titled span inside the follower anchor (src/user.ts
line 155). -/
def followerTitleSpanOf (doc : Node) : Option (Node × List Node) :=
  (followerAnchorOf doc).bind (fun el => (elSelAll el.2 el.1 selSpanTitle).head?)

/-- The nested span of a span inside the following anchor (src/user.ts
line 156). -/
def followingSpanOf (doc : Node) : Option (Node × List Node) :=
  (followingAnchorOf doc).bind (fun el => (elSelAll el.2 el.1 selSpanSpan).head?)

/-- The raw value object returned by the in-page evaluate function
(src/user.ts lines 158 to 180). -/
structure RawInfo where
  username : Option String
  name : Option String
  priv : Bool
  verified : Bool
  photoUrl : String
  bio : Option String
  pronouns : Option String
  postText : Option String
  followerText : Option String
  followingText : Option String
deriving Repr, DecidableEq

/-- The in-page evaluate function of User.getInfo (src/user.ts lines 67
to 181), assembling the raw extraction result.  The priv field models
the source field named private, a reserved word here. -/
def pageEvaluate (doc : Node) : RawInfo :=
  { username := ((selAllWA doc selHeaderH2).head?).map (fun el => textContent el.1)
    name := (nameElOf doc).map (fun span => jsTrimString (textContent span.1))
    priv := isPrivateOf doc
    verified := ((selAllWA doc selHeaderSvgVerified).head?).isSome
    photoUrl :=
      (((selAllWA doc selHeaderAvatarImg).head?).bind
        (fun el => attrOfNode el.1 "src")).getD ""
    bio := bioOf doc
    pronouns := pronounsOf doc
    postText := (postElOf doc).map textContent
    followerText := (followerTitleSpanOf doc).bind (fun el => attrOfNode el.1 "title")
    followingText := (followingSpanOf doc).map (fun el => textContent el.1) }

/-- The cached record assembled by User.getInfo (src/user.ts lines 183
to 196): username falls back to the constructor argument, counts go
through cleanNum. -/
structure UserInfo where
  username : String
  name : Option String
  priv : Bool
  verified : Bool
  photoUrl : String
  bio : Option String
  pronouns : Option String
  posts : Int
  followers : Int
  following : Int
deriving Repr, DecidableEq

/-- Assembly of the final record from the raw extraction (src/user.ts
lines 183 to 196). -/
def buildInfo (fallbackUsername : String) (doc : Node) : UserInfo :=
  let raw := pageEvaluate doc
  { username := raw.username.getD fallbackUsername
    name := raw.name
    priv := raw.priv
    verified := raw.verified
    photoUrl := raw.photoUrl
    bio := raw.bio
    pronouns := raw.pronouns
    posts := cleanNum raw.postText
    followers := cleanNum raw.followerText
    following := cleanNum raw.followingText }

/-- The mutable state of a User entity: the constructor username and the
cached record (src/user.ts lines 35 to 45). -/
structure UserState where
  username : String
  info : Option UserInfo
deriving Repr, DecidableEq

/-- The failure of User.getInfo: the bounded waitForSelector on the
readiness anchor elapsing (src/user.ts lines 62 to 64). -/
inductive LoadError where
  | timeout
deriving Repr, DecidableEq

/-- The bounded-wait default of the readiness waitForSelector call
(src/user.ts line 63). -/
def getInfoTimeoutMs : Nat := 5000

/-- Whether the readiness anchor selector has a match, which is what the
bounded waitForSelector call resolves on. -/
def hasReadinessAnchor (doc : Node) : Bool :=
  ((selAllWA doc selHeaderAvatarImg).head?).isSome

/-- User.getInfo (src/user.ts lines 56 to 199): return the cached record
if present; otherwise wait for the readiness anchor (a missing anchor is
the Timeout failure, leaving the state untouched), evaluate, assemble,
cache and return. -/
def getInfo (st : UserState) (doc : Node) : UserState × Except LoadError UserInfo :=
  match st.info with
  | some i => (st, Except.ok i)
  | none =>
    if hasReadinessAnchor doc then
      let i := buildInfo st.username doc
      ({ st with info := some i }, Except.ok i)
    else (st, Except.error LoadError.timeout)

/-- User.clearCache (src/user.ts lines 204 to 206). -/
def clearCache (st : UserState) : UserState := { st with info := none }

/-! ## The session shell (src/session.ts and the sibling variant) -/

/-- Session state: whether the browser was launched (this.browser not
null) and whether authentication completed. -/
structure SessionState where
  browserLaunched : Bool
  authenticated : Bool
deriving Repr, DecidableEq

/-- InstagramSession.getUser of src/session.ts (part_000 lines 83 to
94): null unless launched and authenticated, else a User entity bound to
the username. -/
def getUserChecked (s : SessionState) (username : String) : Option String :=
  if !s.browserLaunched || !s.authenticated then none else some username

/-- InstagramSession.getPost of src/session.ts (part_000 lines 103 to
114): same guard as getUserChecked. -/
def getPostChecked (s : SessionState) (postId : String) : Option String :=
  if !s.browserLaunched || !s.authenticated then none else some postId

/-- In the sibling session variant (part_000 lines 228 to 239) the guard
reads the method reference this.authenticate instead of the boolean
field this.authenticated; a function object is always truthy in
JavaScript. -/
def authenticateMethodTruthy : Bool := true

/-- InstagramSession.getUser of the sibling variant (part_000 lines 228
to 239), with the guard as written: the authentication conjunct tests
the truthiness of the method reference. -/
def getUserLegacy (s : SessionState) (username : String) : Option String :=
  if !s.browserLaunched || !authenticateMethodTruthy then none else some username

/-! ## Fixture documents -/

/-- Fixture: a public account header (tablist present) with post span
1,234, a followers anchor carrying the precise count 5,678 in the title
attribute of a nested span, and a following anchor with nested-span
text 42. -/
def docPub : Node :=
  Node.elem "html" []
    [Node.elem "header" []
      [Node.elem "img" [("alt", "alice profile picture"), ("src", "pic.jpg")] [],
       Node.elem "h2" [] [Node.text "alice"],
       Node.elem "div" []
         [Node.elem "span" [("dir", "auto")] [Node.text "Alice A"]],
       Node.elem "span" []
         [Node.elem "span" [] [Node.text "1,234"], Node.text " posts"],
       Node.elem "a" [("href", "/alice/followers/")]
         [Node.elem "span" [("title", "5,678")] [Node.text "5.6K"]],
       Node.elem "a" [("href", "/alice/following/")]
         [Node.elem "span" [] [Node.elem "span" [] [Node.text "42"]]]],
     Node.elem "main" [] [Node.elem "div" [("role", "tablist")] []]]

/-- Fixture: a private account header (no tablist) with placeholder
anchors for 10 followers and 3 following. -/
def docPriv : Node :=
  Node.elem "html" []
    [Node.elem "header" []
      [Node.elem "img" [("alt", "bob profile picture"), ("src", "b.jpg")] [],
       Node.elem "h2" [] [Node.text "bob"],
       Node.elem "a" [("href", "#")]
         [Node.elem "span" [("title", "10")] [Node.text "10"], Node.text " followers"],
       Node.elem "a" [("href", "#")]
         [Node.elem "span" [] [Node.elem "span" [] [Node.text "3"]],
          Node.text " following"]]]

/-- Fixture: the only display-name candidate carries a nested span that
has no dir attribute. -/
def docNestedPlainSpan : Node :=
  Node.elem "html" []
    [Node.elem "header" []
      [Node.elem "span" [("dir", "auto")]
        [Node.elem "span" [] [Node.text "Bob"]]]]

/-- Fixture: a bio whose element wraps part of the text in an anchor. -/
def docBioLink : Node :=
  Node.elem "html" []
    [Node.elem "header" []
      [Node.elem "div" [("role", "button")]
        [Node.elem "span" [("dir", "auto")]
          [Node.elem "a" [("href", "x")] [Node.text "click"],
           Node.text " here"]]]]

/-- Fixture: a bio with an explicit line break between two text runs. -/
def docBioBr : Node :=
  Node.elem "html" []
    [Node.elem "header" []
      [Node.elem "div" [("role", "button")]
        [Node.elem "span" [("dir", "auto")]
          [Node.text "x", Node.elem "br" [] [], Node.text "y"]]]]

/-- Fixture: a document with no readiness anchor at all. -/
def docEmpty : Node := Node.elem "html" [] []

/-! ## Spec-side definitions, written from the wording of the claims -/

/-- Number of elements matching the content-tablist region. -/
def tablistMatchCount (doc : Node) : Nat :=
  (selAllWA doc selMainTablist).length

/-- The private-branch count anchor described by the spec: among
header-scoped anchors whose target is the placeholder, the first whose
text contains the given word. -/
def privateCountAnchor (doc : Node) (word : String) : Option (Node × List Node) :=
  (selAllWA doc selHeaderAnchorHash).find?
    (fun el => strContains (textContent el.1) word)

/-- The public-branch count anchor described by the spec: the first
header anchor matching the given href-suffix selector. -/
def publicCountAnchor (doc : Node) (sel : Selector) : Option (Node × List Node) :=
  (selAllWA doc sel).head?

/-- The followers read rule of the spec: the count text is the
title-style attribute of a nested titled span of the anchor. -/
def titledNestedText (a : Option (Node × List Node)) : Option String :=
  (a.bind (fun el => (elSelAll el.2 el.1 selSpanTitle).head?)).bind
    (fun el => attrOfNode el.1 "title")

/-- The following read rule of the spec: the count text is the text
content of a nested span of a span of the anchor. -/
def nestedSpanText (a : Option (Node × List Node)) : Option String :=
  (a.bind (fun el => (elSelAll el.2 el.1 selSpanSpan).head?)).map
    (fun el => textContent el.1)

/-- The follower count text as claim C4 words it, branching on the
privacy flag. -/
def c4FollowerText (doc : Node) : Option String :=
  titledNestedText
    (if tablistMatchCount doc == 0 then privateCountAnchor doc "followers"
     else publicCountAnchor doc selHeaderAnchorFollowers)

/-- The following count text as claim C4 words it. -/
def c4FollowingText (doc : Node) : Option String :=
  nestedSpanText
    (if tablistMatchCount doc == 0 then privateCountAnchor doc "following"
     else publicCountAnchor doc selHeaderAnchorFollowing)

/-- The four display-name predicates as the amended claim C5 words them:
not nested in a heading, not nested in a hyperlink, no nested span of
any kind, and text without the post-count label. -/
def nameCandidateOk (span : Node × List Node) : Bool :=
  !(closestTag span.1 span.2 "h2") && !(closestTag span.1 span.2 "a") &&
    !((elSelAll span.2 span.1 selSpanPlain).head?).isSome &&
    !(strContains (textContent span.1) " posts")

/-- The display-name locator as the amended claim C5 words it: first
candidate satisfying all four predicates, absent when none does. -/
def c5AmendedNameLocator (doc : Node) : Option String :=
  (((nameCandidates doc).filter nameCandidateOk).head?).map
    (fun span => jsTrimString (textContent span.1))

/-- Selector: span with dir auto, no ancestor part (the same-kind nested
span of claim C5 as written). -/
def selSpanDirAutoPlain : Selector := ⟨[], ⟨"span", [AttrCond.exact "dir" "auto"]⟩⟩

/-- The display-name locator as claim C5 is written: predicate (c)
rejects only a nested text-direction span of the same kind, not every
nested span. -/
def c5ClaimNameLocator (doc : Node) : Option String :=
  (((nameCandidates doc).filter (fun span =>
      !(closestTag span.1 span.2 "h2") && !(closestTag span.1 span.2 "a") &&
        !((elSelAll span.2 span.1 selSpanDirAutoPlain).head?).isSome &&
        !(strContains (textContent span.1) " posts"))).head?).map
    (fun span => jsTrimString (textContent span.1))

mutual

/-- Is there an element with the given tag in a node (the node itself or
a descendant). -/
def nodeHasTag (tag : String) : Node → Bool
  | Node.text _ => false
  | Node.elem t _ cs => t == tag || forestHasTag tag cs

/-- Is there an element with the given tag in a forest. -/
def forestHasTag (tag : String) : List Node → Bool
  | [] => false
  | n :: rest => nodeHasTag tag n || forestHasTag tag rest

end

/-! ## Helper lemmas -/

/-- find? returns the head of the filtered list. -/
theorem find_eq_filter_head {α : Type} (p : α → Bool) (l : List α) :
    l.find? p = (l.filter p).head? := by
  induction l with
  | nil => rfl
  | cons a l ih =>
    cases h : p a
    · rw [List.find?_cons_of_neg _ (by simp [h]), List.filter_cons_of_neg (by simp [h]), ih]
    · rw [List.find?_cons_of_pos _ h, List.filter_cons_of_pos h, List.head?_cons]

/-- The inline display-name predicate of the source agrees with the
conjunction form used by the amended claim C5. -/
theorem nameSpanPred_eq_nameCandidateOk (span : Node × List Node) :
    nameSpanPred span = nameCandidateOk span := by
  unfold nameSpanPred nameCandidateOk
  cases h1 : closestTag span.1 span.2 "h2" <;>
    cases h2 : closestTag span.1 span.2 "a" <;>
      cases h3 : ((elSelAll span.2 span.1 selSpanPlain).head?).isSome <;>
        cases h4 : strContains (textContent span.1) " posts" <;>
          simp [h1, h2, h3, h4]

/-! ## Claim theorems -/

/-- C3: for every document snapshot the privacy flag of the extracted
record is true exactly when zero elements match the content-tablist
selector, and this flag is the discriminant that selects the private or
public branch for both the follower and the following locator. -/
theorem privacy_flag_and_branches :
    ∀ doc : Node,
      ((pageEvaluate doc).priv = (tablistMatchCount doc == 0)) ∧
      ((pageEvaluate doc).followerText =
        titledNestedText
          (if (pageEvaluate doc).priv then privateCountAnchor doc "followers"
           else publicCountAnchor doc selHeaderAnchorFollowers)) ∧
      ((pageEvaluate doc).followingText =
        nestedSpanText
          (if (pageEvaluate doc).priv then privateCountAnchor doc "following"
           else publicCountAnchor doc selHeaderAnchorFollowing)) := by
  intro doc
  exact ⟨rfl, rfl, rfl⟩

/-- C4: the follower and following locators branch on the privacy flag
exactly as the spec describes (placeholder anchors filtered by the word
followers or following when private, href-suffix anchors when public;
followers read from the title attribute of a nested titled span,
following from nested span text), checked end to end on the public and
the private fixtures. -/
theorem follower_following_locators :
    (∀ doc : Node,
      (pageEvaluate doc).followerText = c4FollowerText doc ∧
      (pageEvaluate doc).followingText = c4FollowingText doc) ∧
    (buildInfo "alice" docPub).priv = false ∧
    (buildInfo "alice" docPub).followers = 5678 ∧
    (buildInfo "alice" docPub).following = 42 ∧
    (buildInfo "bob" docPriv).priv = true ∧
    (buildInfo "bob" docPriv).followers = 10 ∧
    (buildInfo "bob" docPriv).following = 3 := by
  exact ⟨fun doc => ⟨rfl, rfl⟩, rfl, rfl, rfl, rfl, rfl, rfl⟩

/-- C5 counterexample: on a document whose only header text-direction
span carries a nested span without a dir attribute, the code rejects the
candidate (its nested-span test matches any span) and yields no name,
while the locator as the claim words it (same-kind nested span only)
selects the candidate. -/
theorem name_locator_claim_counterexample :
    (pageEvaluate docNestedPlainSpan).name = none ∧
    c5ClaimNameLocator docNestedPlainSpan = some "Bob" := by
  exact ⟨rfl, rfl⟩

/-- C5 amended: the display-name locator returns the first header
text-direction span that is not nested in a heading, not nested in a
hyperlink, contains no nested span of any kind, and whose text does not
contain the post-count label; absent when no candidate qualifies. -/
theorem name_locator_amended :
    ∀ doc : Node, (pageEvaluate doc).name = c5AmendedNameLocator doc := by
  intro doc
  show (nameElOf doc).map _ = _
  unfold nameElOf c5AmendedNameLocator
  rw [find_eq_filter_head,
    List.filter_congr (fun sp _ => nameSpanPred_eq_nameCandidateOk sp)]

/-- C9: in src/session.ts, getUser and getPost return the explicit
unavailable result before launch or before authentication; but the
sibling session variant tests the truthiness of the authenticate method
reference instead of the authenticated flag, so after launch and before
authentication it constructs and returns an entity, contradicting its
own doc comment. -/
theorem unauthenticated_getUser_divergence :
    getUserLegacy ⟨true, false⟩ "alice" = some "alice" ∧
    getUserChecked ⟨true, false⟩ "alice" = none ∧
    getPostChecked ⟨true, false⟩ "p1" = none ∧
    getUserChecked ⟨false, false⟩ "alice" = none ∧
    getPostChecked ⟨false, true⟩ "p1" = none := by
  exact ⟨rfl, rfl, rfl, rfl, rfl⟩

mutual

/-- After the anchor-replacement loop no anchor element remains in a
transformed node. -/
theorem nodeHasTag_a_unwrapAnchorNode (n : Node) :
    nodeHasTag "a" (unwrapAnchorNode n) = false := by
  cases n with
  | text s => rfl
  | elem t a cs =>
    unfold unwrapAnchorNode
    cases h : t == "a"
    · simp only [h, Bool.false_eq_true, if_false, nodeHasTag, h,
        forestHasTag_a_unwrapAnchors cs, Bool.or_false]
    · simp only [h, if_true, nodeHasTag]

/-- After the anchor-replacement loop no anchor element remains in a
transformed forest. -/
theorem forestHasTag_a_unwrapAnchors (cs : List Node) :
    forestHasTag "a" (unwrapAnchors cs) = false := by
  cases cs with
  | nil => rfl
  | cons n rest =>
    unfold unwrapAnchors forestHasTag
    rw [nodeHasTag_a_unwrapAnchorNode n, forestHasTag_a_unwrapAnchors rest]
    rfl

end

mutual

/-- After the line-break replacement loop no br element remains in a
transformed node. -/
theorem nodeHasTag_br_breakNode (n : Node) :
    nodeHasTag "br" (breakToNewlineNode n) = false := by
  cases n with
  | text s => rfl
  | elem t a cs =>
    unfold breakToNewlineNode
    cases h : t == "br"
    · simp only [h, Bool.false_eq_true, if_false, nodeHasTag, h,
        forestHasTag_br_breaks cs, Bool.or_false]
    · simp only [h, if_true, nodeHasTag]

/-- After the line-break replacement loop no br element remains in a
transformed forest. -/
theorem forestHasTag_br_breaks (cs : List Node) :
    forestHasTag "br" (breaksToNewlines cs) = false := by
  cases cs with
  | nil => rfl
  | cons n rest =>
    unfold breaksToNewlines forestHasTag
    rw [nodeHasTag_br_breakNode n, forestHasTag_br_breaks rest]
    rfl

end

mutual

/-- The line-break replacement loop introduces no anchor element into a
node that had none. -/
theorem nodeHasTag_a_breakNode (n : Node) (h : nodeHasTag "a" n = false) :
    nodeHasTag "a" (breakToNewlineNode n) = false := by
  cases n with
  | text s => rfl
  | elem t a cs =>
    unfold breakToNewlineNode
    unfold nodeHasTag at h
    cases hbr : t == "br"
    · simp only [hbr, Bool.false_eq_true, if_false, nodeHasTag]
      rw [forestHasTag_a_breaks cs (by
        cases hf : forestHasTag "a" cs
        · rfl
        · rw [hf] at h; simp at h)]
      cases ht : t == "a"
      · rfl
      · rw [ht] at h; simp at h
    · simp only [hbr, if_true, nodeHasTag]

/-- The line-break replacement loop introduces no anchor element into a
forest that had none. -/
theorem forestHasTag_a_breaks (cs : List Node) (h : forestHasTag "a" cs = false) :
    forestHasTag "a" (breaksToNewlines cs) = false := by
  cases cs with
  | nil => rfl
  | cons n rest =>
    unfold breaksToNewlines forestHasTag
    unfold forestHasTag at h
    rw [nodeHasTag_a_breakNode n (by
        cases hn : nodeHasTag "a" n
        · rfl
        · rw [hn] at h; simp at h),
      forestHasTag_a_breaks rest (by
        cases hr : forestHasTag "a" rest
        · rfl
        · rw [hr] at h; simp at h)]
    rfl

end

/-- C6: the bio sanitizer yields absent exactly when no bio element is
located; the sanitized forest contains no hyperlink element and no
line-break element (every anchor was replaced by its text, every break
by a newline); and on the concrete fragments the claim names, a wrapped
link flattens to its text and a break becomes one newline.  The
transform runs on a clone, so it is a pure function of the subtree and
the document is untouched. -/
theorem bio_sanitizer_spec :
    (∀ doc : Node, ((pageEvaluate doc).bio = none ↔ selAllWA doc selBioSpan = [])) ∧
    (∀ cs : List Node,
      forestHasTag "a" (breaksToNewlines (unwrapAnchors cs)) = false ∧
      forestHasTag "br" (breaksToNewlines (unwrapAnchors cs)) = false) ∧
    (pageEvaluate docBioLink).bio = some "click here" ∧
    (pageEvaluate docBioBr).bio = some "x\ny" := by
  refine ⟨?_, ?_, rfl, rfl⟩
  · intro doc
    show bioOf doc = none ↔ _
    unfold bioOf bioElOf
    cases h : (selAllWA doc selBioSpan).head? with
    | none =>
      rw [List.head?_eq_none_iff] at h
      simp [h]
    | some el =>
      have : selAllWA doc selBioSpan ≠ [] := by
        intro hnil
        rw [hnil] at h
        exact Option.noConfusion h
      simp [h, this]
  · intro cs
    exact ⟨forestHasTag_a_breaks _ (forestHasTag_a_unwrapAnchors cs),
      forestHasTag_br_breaks _⟩

/-- C7: User.getInfo fails with Timeout exactly when no record is cached
and the readiness anchor selector has no match within the bounded wait
(default 5000 milliseconds); on such a failure the cached-record field
is untouched; on a fresh success the complete assembled record is cached
and returned, with the caller-supplied username substituted when the
page-derived one is unavailable. -/
theorem getInfo_timeout_contract :
    ∀ (st : UserState) (doc : Node),
      ((getInfo st doc).2 = Except.error LoadError.timeout ↔
        (st.info = none ∧ hasReadinessAnchor doc = false)) ∧
      ((getInfo st doc).2 = Except.error LoadError.timeout →
        (getInfo st doc).1 = st) ∧
      (st.info = none → hasReadinessAnchor doc = true →
        getInfo st doc =
          ({ st with info := some (buildInfo st.username doc) },
           Except.ok (buildInfo st.username doc))) ∧
      ((pageEvaluate doc).username = none →
        (buildInfo st.username doc).username = st.username) ∧
      getInfoTimeoutMs = 5000 := by
  intro st doc
  refine ⟨?_, ?_, ?_, ?_, rfl⟩
  · cases h : st.info <;> cases h2 : hasReadinessAnchor doc <;>
      simp [getInfo, h, h2]
  · cases h : st.info <;> cases h2 : hasReadinessAnchor doc <;>
      simp [getInfo, h, h2]
  · intro h h2
    simp [getInfo, h, h2]
  · intro h
    show ((pageEvaluate doc).username.getD st.username) = st.username
    rw [h]
    rfl

/-- C7 witness: a concrete timeout on the empty document leaves the
state unchanged, and a concrete success on the public fixture caches and
returns the complete record. -/
theorem getInfo_timeout_contract_witness :
    (getInfo ⟨"alice", none⟩ docEmpty).1 = ⟨"alice", none⟩ ∧
    getInfo ⟨"alice", none⟩ docPub =
      (⟨"alice", some (buildInfo "alice" docPub)⟩,
       Except.ok (buildInfo "alice" docPub)) := by
  constructor
  · exact (getInfo_timeout_contract ⟨"alice", none⟩ docEmpty).2.1 rfl
  · exact (getInfo_timeout_contract ⟨"alice", none⟩ docPub).2.2.1 rfl rfl

/-- C8: User.getInfo is idempotent on an unchanged document (calling it
again from the state it produced gives the same state and record); a
cached record is returned as is, independent of the page; and clearCache
followed by getInfo recomputes the record from the document through
every locator, regardless of the previous cache. -/
theorem getInfo_idempotent_cache :
    ∀ (st : UserState) (doc : Node),
      (getInfo ((getInfo st doc).1) doc = getInfo st doc) ∧
      (∀ i : UserInfo, st.info = some i → getInfo st doc = (st, Except.ok i)) ∧
      (hasReadinessAnchor doc = true →
        getInfo (clearCache st) doc =
          (⟨st.username, some (buildInfo st.username doc)⟩,
           Except.ok (buildInfo st.username doc))) := by
  intro st doc
  refine ⟨?_, ?_, ?_⟩
  · cases h : st.info <;> cases h2 : hasReadinessAnchor doc <;>
      simp [getInfo, h, h2]
  · intro i h
    simp [getInfo, h]
  · intro h2
    simp [getInfo, clearCache, h2]

/-- C8 witness: a concrete double call on the public fixture, a cached
record returned on a document that could not even load, and a clearCache
followed by a reload through the locators on the private fixture. -/
theorem getInfo_idempotent_cache_witness :
    getInfo ((getInfo ⟨"alice", none⟩ docPub).1) docPub =
      getInfo ⟨"alice", none⟩ docPub ∧
    getInfo ⟨"bob", some (buildInfo "alice" docPub)⟩ docEmpty =
      (⟨"bob", some (buildInfo "alice" docPub)⟩,
       Except.ok (buildInfo "alice" docPub)) ∧
    getInfo (clearCache ⟨"bob", some (buildInfo "alice" docPub)⟩) docPriv =
      (⟨"bob", some (buildInfo "bob" docPriv)⟩,
       Except.ok (buildInfo "bob" docPriv)) := by
  refine ⟨(getInfo_idempotent_cache ⟨"alice", none⟩ docPub).1,
    (getInfo_idempotent_cache ⟨"bob", some (buildInfo "alice" docPub)⟩ docEmpty).2.1
      (buildInfo "alice" docPub) rfl,
    (getInfo_idempotent_cache ⟨"bob", some (buildInfo "alice" docPub)⟩ docPriv).2.2 rfl⟩

/-- A digit character is not bEq to any character that is not a digit. -/
theorem beq_false_of_isDigit {c w : Char} (h : c.isDigit = true)
    (hw : w.isDigit = false) : (c == w) = false := by
  cases hcw : c == w
  · rfl
  · have hcweq : c = w := eq_of_beq hcw
    rw [hcweq] at h
    rw [h] at hw
    exact Bool.noConfusion hw

/-- A digit character is not ECMAScript whitespace. -/
theorem digit_not_ws {c : Char} (h : c.isDigit = true) : jsIsWs c = false := by
  unfold jsIsWs
  rw [beq_false_of_isDigit h (by decide), beq_false_of_isDigit h (by decide),
    beq_false_of_isDigit h (by decide), beq_false_of_isDigit h (by decide),
    beq_false_of_isDigit h (by decide), beq_false_of_isDigit h (by decide),
    beq_false_of_isDigit h (by decide), beq_false_of_isDigit h (by decide),
    beq_false_of_isDigit h (by decide), beq_false_of_isDigit h (by decide)]
  rfl

/-- dropWhile is the identity on a list all of whose entries fail the
predicate. -/
theorem dropWhile_eq_self_of_all {p : Char → Bool} {l : List Char}
    (h : ∀ c ∈ l, p c = false) : l.dropWhile p = l := by
  cases l with
  | nil => rfl
  | cons a l =>
    rw [List.dropWhile_cons, h a (List.mem_cons_self a l)]
    simp

/-- The model trim is the identity on a list with no whitespace. -/
theorem jsTrimChars_eq_self {l : List Char} (h : ∀ c ∈ l, jsIsWs c = false) :
    jsTrimChars l = l := by
  unfold jsTrimChars
  rw [dropWhile_eq_self_of_all h,
    dropWhile_eq_self_of_all (fun c hc => h c (List.mem_reverse.mp hc)),
    List.reverse_reverse]

/-- takeWhile passes over a block that wholly satisfies the predicate. -/
theorem takeWhile_append_of_all {p : Char → Bool} :
    ∀ (ds rest : List Char), (∀ c ∈ ds, p c = true) →
      List.takeWhile p (ds ++ rest) = ds ++ List.takeWhile p rest := by
  intro ds
  induction ds with
  | nil => intro rest _; rfl
  | cons d ds ih =>
    intro rest h
    rw [List.cons_append, List.takeWhile_cons, h d (List.mem_cons_self d ds)]
    simp only [if_true]
    rw [ih rest (fun c hc => h c (List.mem_cons_of_mem d hc)), List.cons_append]

/-- takeWhile is the identity on a list that wholly satisfies the
predicate. -/
theorem takeWhile_eq_self_of_all {p : Char → Bool} (l : List Char)
    (h : ∀ c ∈ l, p c = true) : List.takeWhile p l = l := by
  have := takeWhile_append_of_all l [] h
  simpa using this

/-- takeWhile stops at a head that fails the predicate. -/
theorem takeWhile_cons_of_neg {p : Char → Bool} {c : Char} (rest : List Char)
    (h : p c = false) : List.takeWhile p (c :: rest) = [] := by
  rw [List.takeWhile_cons, h]
  simp

/-- The radix-detection phase on an all-digit list parses the whole
list. -/
theorem parseDigitsRadix_digits (ds : List Char) (h1 : ds ≠ [])
    (h2 : ∀ c ∈ ds, c.isDigit = true) :
    parseDigitsRadix ds = some (digitsToNat ds) := by
  cases ds with
  | nil => exact absurd rfl h1
  | cons d ds2 =>
    cases ds2 with
    | nil =>
      show decDigitsVal [d] = _
      unfold decDigitsVal
      rw [takeWhile_eq_self_of_all [d] h2]
      rfl
    | cons d2 ds3 =>
      have hd2 : d2.isDigit = true :=
        h2 d2 (List.mem_cons_of_mem d (List.mem_cons_self d2 ds3))
      have harm : parseDigitsRadix (d :: d2 :: ds3) =
          if d == '0' && (d2 == 'x' || d2 == 'X') then hexDigitsVal ds3
          else decDigitsVal (d :: d2 :: ds3) := rfl
      rw [harm, beq_false_of_isDigit hd2 (by decide),
        beq_false_of_isDigit hd2 (by decide)]
      simp only [Bool.or_self, Bool.and_false, Bool.false_eq_true, if_false]
      unfold decDigitsVal
      rw [takeWhile_eq_self_of_all _ h2]
      rfl

/-- The radix-detection phase on a nonzero-valued digit run followed by
a non-digit parses exactly the run. -/
theorem parseDigitsRadix_digits_stop (ds : List Char) (c : Char)
    (rest : List Char) (h1 : ds ≠ []) (h2 : ∀ x ∈ ds, x.isDigit = true)
    (h3 : c.isDigit = false) (h4 : digitsToNat ds ≠ 0) :
    parseDigitsRadix (ds ++ c :: rest) = some (digitsToNat ds) := by
  cases ds with
  | nil => exact absurd rfl h1
  | cons d ds2 =>
    cases ds2 with
    | nil =>
      have hd0 : (d == '0') = false := by
        cases hdd : d == '0'
        · rfl
        · exfalso
          have hde : d = '0' := eq_of_beq hdd
          rw [hde] at h4
          exact h4 (by decide)
      have harm : parseDigitsRadix (d :: c :: rest) =
          if d == '0' && (c == 'x' || c == 'X') then hexDigitsVal rest
          else decDigitsVal (d :: c :: rest) := rfl
      show parseDigitsRadix (d :: c :: rest) = _
      rw [harm, hd0]
      simp only [Bool.false_and, Bool.false_eq_true, if_false]
      unfold decDigitsVal
      rw [List.takeWhile_cons, h2 d (List.mem_cons_self d [])]
      simp only [if_true]
      rw [takeWhile_cons_of_neg rest h3]
      rfl
    | cons d2 ds3 =>
      have hd2 : d2.isDigit = true :=
        h2 d2 (List.mem_cons_of_mem d (List.mem_cons_self d2 ds3))
      have harm : parseDigitsRadix (d :: d2 :: (ds3 ++ c :: rest)) =
          if d == '0' && (d2 == 'x' || d2 == 'X') then
            hexDigitsVal (ds3 ++ c :: rest)
          else decDigitsVal (d :: d2 :: (ds3 ++ c :: rest)) := rfl
      show parseDigitsRadix (d :: d2 :: (ds3 ++ c :: rest)) = _
      rw [harm, beq_false_of_isDigit hd2 (by decide),
        beq_false_of_isDigit hd2 (by decide)]
      simp only [Bool.or_self, Bool.and_false, Bool.false_eq_true, if_false]
      unfold decDigitsVal
      have htake : List.takeWhile Char.isDigit ((d :: d2 :: ds3) ++ c :: rest) =
          d :: d2 :: ds3 := by
        rw [takeWhile_append_of_all _ _ h2, takeWhile_cons_of_neg rest h3]
        simp
      rw [List.cons_append, List.cons_append] at htake
      rw [htake]
      rfl

/-- The model parseInt on a list headed by a digit delegates to the
radix-detection phase unchanged: no whitespace is skipped, no sign is
consumed. -/
theorem jsParseInt_cons_digit (d : Char) (tail : List Char)
    (hd : d.isDigit = true) :
    jsParseIntChars (d :: tail) =
      (parseDigitsRadix (d :: tail)).map (fun n => Int.ofNat n) := by
  have hdrop : List.dropWhile jsIsWs (d :: tail) = d :: tail := by
    rw [List.dropWhile_cons, digit_not_ws hd]
    simp
  unfold jsParseIntChars
  rw [hdrop]
  show (if d == '-' then (parseDigitsRadix tail).map (fun n => -(Int.ofNat n))
      else if d == '+' then (parseDigitsRadix tail).map (fun n => Int.ofNat n)
      else (parseDigitsRadix (d :: tail)).map (fun n => Int.ofNat n)) = _
  rw [beq_false_of_isDigit hd (by decide), beq_false_of_isDigit hd (by decide)]
  simp

/-- An empty-string bEq test is false when the character data is
nonempty. -/
theorem beq_empty_false_of_data_ne {s : String} (h : s.data ≠ []) :
    (s == "") = false := by
  cases hb : s == ""
  · rfl
  · exfalso
    have hd := congrArg String.data (eq_of_beq hb)
    exact h (hd.trans rfl)

/-- A string with empty character data is the empty string. -/
theorem eq_empty_of_data_eq {s : String} (h : s.data = []) : s = "" := by
  cases s with
  | mk l =>
    have hl : l = [] := h
    rw [hl]

/-- A nonzero natural embedded in the integers is not bEq to zero. -/
theorem ofNat_beq_zero_false {n : Nat} (h : n ≠ 0) :
    (Int.ofNat n == 0) = false := by
  cases hb : Int.ofNat n == 0
  · rfl
  · exfalso
    have h2 : (n : Int) = 0 := eq_of_beq hb
    omega

/-- Evaluation of cleanNum when the parse of the stripped trimmed text
succeeds. -/
theorem cleanNum_of_parse_some {s : String} {v : Int}
    (hbe : (s == "") = false)
    (hp : jsParseIntChars (jsTrimChars ((s.data).filter (fun c => c ≠ ','))) =
      some v) :
    cleanNum (some s) = if v == 0 then (-1 : Int) else v := by
  simp only [cleanNum, hbe, Bool.false_eq_true, if_false, hp]

/-- Evaluation of cleanNum when the parse of the stripped trimmed text
fails. -/
theorem cleanNum_of_parse_none {s : String}
    (hbe : (s == "") = false)
    (hp : jsParseIntChars (jsTrimChars ((s.data).filter (fun c => c ≠ ','))) =
      none) :
    cleanNum (some s) = -1 := by
  simp only [cleanNum, hbe, Bool.false_eq_true, if_false, hp]

/-- The model parseInt on a nonempty all-digit list returns its decimal
value. -/
theorem jsParseInt_all_digits (l : List Char) (hne : l ≠ [])
    (hdig : ∀ c ∈ l, c.isDigit = true) :
    jsParseIntChars l = some (Int.ofNat (digitsToNat l)) := by
  obtain ⟨d, tail, rfl⟩ := List.exists_cons_of_ne_nil hne
  rw [jsParseInt_cons_digit d tail (hdig d (List.mem_cons_self d tail)),
    parseDigitsRadix_digits _ (by simp) hdig]
  rfl

/-- C1 counterexample: the string 0 consists only of decimal digits and
its value with separators removed is 0, yet cleanNum returns -1, because
the JavaScript or-else coalescing treats the parsed 0 as falsy. -/
theorem cleanNum_zero_counterexample :
    cleanNum (some "0") = -1 ∧
    digitsToNat ((("0" : String).data).filter (fun c => c ≠ ',')) = 0 := by
  exact ⟨by decide, by decide⟩

/-- C1 amended: for every string of decimal digits and comma separators,
cleanNum returns the base-10 value of the string with the separators
removed whenever that value is nonzero, and returns -1 when that value
is zero (including the all-separator and empty cases). -/
theorem cleanNum_digit_comma_strings (s : String)
    (hall : ∀ c ∈ s.data, c.isDigit = true ∨ c = ',') :
    (digitsToNat ((s.data).filter (fun c => c ≠ ',')) ≠ 0 →
      cleanNum (some s) =
        Int.ofNat (digitsToNat ((s.data).filter (fun c => c ≠ ',')))) ∧
    (digitsToNat ((s.data).filter (fun c => c ≠ ',')) = 0 →
      cleanNum (some s) = -1) := by
  have hdig : ∀ c ∈ (s.data).filter (fun c => c ≠ ','), c.isDigit = true := by
    intro c hc
    have hm := List.mem_filter.mp hc
    rcases hall c hm.1 with h | h
    · exact h
    · exfalso
      have hb := hm.2
      rw [h] at hb
      simp at hb
  have htrim : jsTrimChars ((s.data).filter (fun c => c ≠ ',')) =
      (s.data).filter (fun c => c ≠ ',') :=
    jsTrimChars_eq_self (fun c hc => digit_not_ws (hdig c hc))
  constructor
  · intro hne
    have hfil_ne : (s.data).filter (fun c => c ≠ ',') ≠ [] := by
      intro h0
      rw [h0] at hne
      exact hne rfl
    have hsd : s.data ≠ [] := by
      intro h0
      apply hfil_ne
      rw [h0]
      rfl
    have hp : jsParseIntChars
        (jsTrimChars ((s.data).filter (fun c => c ≠ ','))) =
        some (Int.ofNat (digitsToNat ((s.data).filter (fun c => c ≠ ',')))) := by
      rw [htrim]
      exact jsParseInt_all_digits _ hfil_ne hdig
    rw [cleanNum_of_parse_some (beq_empty_false_of_data_ne hsd) hp,
      ofNat_beq_zero_false hne]
    simp
  · intro h0
    by_cases hsd : s.data = []
    · rw [eq_empty_of_data_eq hsd]
      decide
    · by_cases hfe : (s.data).filter (fun c => c ≠ ',') = []
      · have hp : jsParseIntChars
            (jsTrimChars ((s.data).filter (fun c => c ≠ ','))) = none := by
          rw [hfe]
          rfl
        exact cleanNum_of_parse_none (beq_empty_false_of_data_ne hsd) hp
      · have hp : jsParseIntChars
            (jsTrimChars ((s.data).filter (fun c => c ≠ ','))) =
            some (Int.ofNat (digitsToNat ((s.data).filter (fun c => c ≠ ',')))) := by
          rw [htrim]
          exact jsParseInt_all_digits _ hfe hdig
        rw [h0] at hp
        rw [cleanNum_of_parse_some (beq_empty_false_of_data_ne hsd) hp]
        decide

/-- C1 witness: concrete digit-and-comma strings normalize to their
exact values. -/
theorem cleanNum_digit_comma_strings_witness :
    cleanNum (some "1,234") = 1234 ∧ cleanNum (some "2,000,000") = 2000000 := by
  constructor
  · exact ((cleanNum_digit_comma_strings "1,234" (by decide)).1
      (by decide)).trans (by decide)
  · exact ((cleanNum_digit_comma_strings "2,000,000" (by decide)).1
      (by decide)).trans (by decide)

/-- C2 counterexample: cleanNum returns -1 on the string 0 although the
input is present, nonempty, and parses to the numeric value 0, so -1
does not arise exactly on absent, empty, or unparseable inputs. -/
theorem cleanNum_sentinel_counterexample :
    cleanNum (some "0") = -1 ∧
    jsParseIntChars
      (jsTrimChars ((("0" : String).data).filter (fun c => c ≠ ','))) =
      some 0 := by
  exact ⟨by decide, by decide⟩

/-- C2 amended: cleanNum is total and returns -1 exactly when the input
is absent, empty, or the parse of the separator-stripped trimmed text
yields NaN, the falsy value 0, or the sentinel value -1 itself; in
particular the absent, empty and alphabetic examples all map to -1. -/
theorem cleanNum_sentinel_cases :
    cleanNum none = -1 ∧ cleanNum (some "") = -1 ∧ cleanNum (some "abc") = -1 ∧
    ∀ s : String,
      (cleanNum (some s) = -1 ↔
        (s = "" ∨
          jsParseIntChars
            (jsTrimChars ((s.data).filter (fun c => c ≠ ','))) = none ∨
          jsParseIntChars
            (jsTrimChars ((s.data).filter (fun c => c ≠ ','))) = some 0 ∨
          jsParseIntChars
            (jsTrimChars ((s.data).filter (fun c => c ≠ ','))) = some (-1))) := by
  refine ⟨by decide, by decide, by decide, ?_⟩
  intro s
  by_cases hs : s = ""
  · exact iff_of_true (by rw [hs]; decide) (Or.inl hs)
  · have hsd : s.data ≠ [] := fun h0 => hs (eq_empty_of_data_eq h0)
    have hbe : (s == "") = false := beq_empty_false_of_data_ne hsd
    cases hp : jsParseIntChars (jsTrimChars ((s.data).filter (fun c => c ≠ ','))) with
    | none =>
      rw [cleanNum_of_parse_none hbe hp]
      exact iff_of_true rfl (Or.inr (Or.inl rfl))
    | some v =>
      rw [cleanNum_of_parse_some hbe hp]
      by_cases hv : v = 0
      · subst hv
        exact iff_of_true (by decide) (Or.inr (Or.inr (Or.inl rfl)))
      · have hvb : (v == 0) = false := by
          cases hb : v == 0
          · rfl
          · exact absurd (eq_of_beq hb) hv
        rw [hvb]
        simp only [Bool.false_eq_true, if_false]
        constructor
        · intro hv1
          subst hv1
          exact Or.inr (Or.inr (Or.inr rfl))
        · intro hcase
          rcases hcase with h | h | h | h
          · exact absurd h hs
          · exact Option.noConfusion h
          · exact absurd (Option.some.inj h) hv
          · exact Option.some.inj h

/-- C10 counterexample: the stripped trimmed form of the string 0a
begins with the digit prefix 0 followed by a non-digit, whose value is
0, yet cleanNum returns -1 rather than that prefix value. -/
theorem cleanNum_prefix_counterexample :
    cleanNum (some "0a") = -1 ∧
    digitsToNat (List.takeWhile Char.isDigit
      (jsTrimChars ((("0a" : String).data).filter (fun c => c ≠ ',')))) = 0 := by
  exact ⟨by decide, by decide⟩

/-- C10 amended: when the comma-stripped trimmed form of the input is a
nonempty decimal digit run of nonzero value followed by a non-digit
character, cleanNum returns the value of that leading digit prefix; a
zero-valued prefix falls to -1 through the falsy coalescing (and a 0x
prefix would engage hexadecimal parsing instead). -/
theorem cleanNum_leading_digit_run (s : String) (ds : List Char) (c : Char)
    (rest : List Char)
    (hsplit : jsTrimChars ((s.data).filter (fun x => x ≠ ',')) = ds ++ c :: rest)
    (hds : ds ≠ []) (hdigits : ∀ x ∈ ds, x.isDigit = true)
    (hstop : c.isDigit = false) (hval : digitsToNat ds ≠ 0) :
    cleanNum (some s) = Int.ofNat (digitsToNat ds) := by
  have hsd : s.data ≠ [] := by
    intro h0
    rw [h0] at hsplit
    have hnil : ([] : List Char) = ds ++ c :: rest := hsplit
    cases ds with
    | nil => exact List.noConfusion hnil
    | cons _ _ => exact List.noConfusion hnil
  have hp : jsParseIntChars (jsTrimChars ((s.data).filter (fun x => x ≠ ','))) =
      some (Int.ofNat (digitsToNat ds)) := by
    rw [hsplit]
    obtain ⟨d, tail, rfl⟩ := List.exists_cons_of_ne_nil hds
    rw [List.cons_append,
      jsParseInt_cons_digit d (tail ++ c :: rest)
        (hdigits d (List.mem_cons_self d tail)),
      ← List.cons_append,
      parseDigitsRadix_digits_stop _ c rest hds hdigits hstop hval]
    rfl
  rw [cleanNum_of_parse_some (beq_empty_false_of_data_ne hsd) hp,
    ofNat_beq_zero_false hval]
  simp

/-- C10 witness: abbreviated counts normalize to the value of their
leading digit prefix. -/
theorem cleanNum_leading_digit_run_witness :
    cleanNum (some "1.2M") = 1 ∧ cleanNum (some "12abc") = 12 := by
  constructor
  · exact (cleanNum_leading_digit_run "1.2M" ['1'] '.' ['2', 'M']
      (by decide) (by decide) (by decide) (by decide) (by decide)).trans (by decide)
  · exact (cleanNum_leading_digit_run "12abc" ['1', '2'] 'a' ['b', 'c']
      (by decide) (by decide) (by decide) (by decide) (by decide)).trans (by decide)
